import Mathlib

/-!
Verification of the rs-melsec MC-protocol client codec.

This file gives a shallow embedding of the protocol codec and addressing
engine of the rs-melsec repository (src/client.rs, src/db.rs, src/err.rs,
src/device_info.rs, src/type3e.rs, src/type4e.rs) and proves or refutes the
specification claims about it.

Modelling conventions:
- Rust byte buffers (`Vec<u8>`, `&[u8]`) are `List Nat`, each entry the byte
  value; machine-integer casts are made explicit with `% 2^w`.
- Rust `Result<_, _>` is `Except String _`; an out-of-bounds slice or index
  (a Rust panic) is an `Except.error` / `Option.none`.
- `NativeEndian` byte order is modelled as little-endian (the target
  platform of the crate is little-endian); the claims settled below depend
  only on byte counts for the native branches, never on the native order.
- Strings handled by the code (device tokens, error codes) are byte lists;
  `strBytes` converts a Lean string literal to its ASCII byte list.
-/

deriving instance DecidableEq for Except

/-- Communication type of a session: `consts::COMMTYPE_BINARY` ("binary")
or `consts::COMMTYPE_ASCII` ("ascii"); `set_comm_type` admits no other
value. -/
inductive CommType where
  | binary
  | ascii
deriving DecidableEq, Repr

/-- Endianness constants from `db::consts`: `ENDIAN_LITTLE` ('<'),
`ENDIAN_BIG` ('>'), `ENDIAN_NATIVE` ('='), `ENDIAN_NETWORK` ('!'). -/
inductive Endian where
  | little
  | big
  | native
  | network
deriving DecidableEq, Repr

/-- Model of `db::DataType`. -/
inductive DataType where
  | BIT
  | SWORD
  | UWORD
  | SDWORD
  | UDWORD
  | FLOAT
  | DOUBLE
  | SLWORD
  | ULWORD
deriving DecidableEq, Repr

/-- Model of `DataType::size` (src/db.rs lines 67-73). -/
def DataType.size : DataType → Nat
  | .BIT | .SWORD | .UWORD => 2
  | .SDWORD | .UDWORD | .FLOAT => 4
  | .DOUBLE | .SLWORD | .ULWORD => 8

/-- The `_wordsize` field kept in sync with the communication type by
`set_comm_type`: 2 for binary, 4 for ascii. -/
def wordSizeOf : CommType → Nat
  | .binary => 2
  | .ascii => 4

/-- ASCII byte list of a string literal. -/
def strBytes (s : String) : List Nat := s.toList.map Char.toNat

/-- Two's-complement representation of an integer in `w` bytes: the byte
pattern written by a (signed or unsigned) `w`-byte integer write of the
truncating cast of the value. -/
def twosComp (w : Nat) (v : Int) : Nat := (v % ((2 : Int) ^ (8 * w))).toNat

/-- Little-endian byte list (`k` bytes) of a natural number. -/
def leBytes : Nat → Nat → List Nat
  | 0, _ => []
  | k + 1, n => n % 256 :: leBytes k (n / 256)

/-- Big-endian byte list (`k` bytes) of a natural number. -/
def beBytes (k n : Nat) : List Nat := (leBytes k n).reverse

/-- Model of `Client::encode_value` (src/client.rs lines 225-275), identical to
`Type3E::encode_value` (src/type3e.rs lines 211-261).  Matches on the
endianness, then on `mode.size()`, then on the signedness flag.  A signed
write (`write_iN` of `value as iN`) and an unsigned write (`write_uN` of
`value as uN`) emit the same two's-complement byte pattern, here
`twosComp`.  Note the asymmetry of the source: under `ENDIAN_LITTLE` size 4
is written as a 16-bit integer and size 8 as a 32-bit integer, under
`ENDIAN_BIG` both sizes 4 and 8 are written as 32-bit integers, and under
`ENDIAN_NATIVE` both are written as 64-bit integers. -/
def encodeValue (endian : Endian) (value : Int) (mode : DataType) (isSignal : Bool) :
    Except String (List Nat) :=
  match endian with
  | .little =>
    match mode.size with
    | 2 => .ok [twosComp 1 value]
    | 4 =>
      match isSignal with
      | true => .ok (leBytes 2 (twosComp 2 value))
      | false => .ok (leBytes 2 (twosComp 2 value))
    | 8 =>
      match isSignal with
      | true => .ok (leBytes 4 (twosComp 4 value))
      | false => .ok (leBytes 4 (twosComp 4 value))
    | _ => .error "Unsupported data type size"
  | .big =>
    match mode.size with
    | 2 => .ok [twosComp 1 value]
    | 4 =>
      match isSignal with
      | true => .ok (beBytes 4 (twosComp 4 value))
      | false => .ok (beBytes 4 (twosComp 4 value))
    | 8 =>
      match isSignal with
      | true => .ok (beBytes 4 (twosComp 4 value))
      | false => .ok (beBytes 4 (twosComp 4 value))
    | _ => .error "Unsupported data type size"
  | .native =>
    match mode.size with
    | 2 => .ok [twosComp 1 value]
    | 4 =>
      match isSignal with
      | true => .ok (leBytes 8 (twosComp 8 value))
      | false => .ok (leBytes 8 (twosComp 8 value))
    | 8 =>
      match isSignal with
      | true => .ok (leBytes 8 (twosComp 8 value))
      | false => .ok (leBytes 8 (twosComp 8 value))
    | _ => .error "Unsupported data type size"
  | .network => .error "Unsupported endianness"

/-- Model of `Cursor::read_u8`: the first byte, or an error on an empty buffer. -/
def readU8 : List Nat → Except String Int
  | [] => .error "failed to fill whole buffer"
  | b :: _ => .ok (b : Int)

/-- Model of `Cursor::read_u16::<LittleEndian>`. -/
def readU16le : List Nat → Except String Int
  | b0 :: b1 :: _ => .ok ((b0 : Int) + 256 * (b1 : Int))
  | _ => .error "failed to fill whole buffer"

/-- Model of `Cursor::read_i16::<LittleEndian>`: same bytes reinterpreted as a
two's-complement signed 16-bit integer. -/
def readI16le : List Nat → Except String Int
  | b0 :: b1 :: _ =>
    .ok (if b0 + 256 * b1 < 32768 then ((b0 + 256 * b1 : Nat) : Int)
         else ((b0 + 256 * b1 : Nat) : Int) - 65536)
  | _ => .error "failed to fill whole buffer"

/-- Model of `Cursor::read_u16::<BigEndian>`. -/
def readU16be : List Nat → Except String Int
  | b0 :: b1 :: _ => .ok (256 * (b0 : Int) + (b1 : Int))
  | _ => .error "failed to fill whole buffer"

/-- Model of `Cursor::read_i16::<BigEndian>`. -/
def readI16be : List Nat → Except String Int
  | b0 :: b1 :: _ =>
    .ok (if 256 * b0 + b1 < 32768 then ((256 * b0 + b1 : Nat) : Int)
         else ((256 * b0 + b1 : Nat) : Int) - 65536)
  | _ => .error "failed to fill whole buffer"

/-- Value of an ASCII hexadecimal digit byte (`hex` crate, both cases). -/
def hexDigitVal (b : Nat) : Option Nat :=
  if 48 ≤ b ∧ b ≤ 57 then some (b - 48)
  else if 97 ≤ b ∧ b ≤ 102 then some (b - 87)
  else if 65 ≤ b ∧ b ≤ 70 then some (b - 55)
  else none

/-- Model of `hex::decode`: pairs of hex digit bytes to bytes; errors on an odd
length or an invalid character. -/
def hexDecode : List Nat → Except String (List Nat)
  | [] => .ok []
  | [_] => .error "Odd number of digits"
  | a :: b :: rest =>
    match hexDigitVal a, hexDigitVal b with
    | some hi, some lo => (hexDecode rest).map (fun t => (16 * hi + lo) :: t)
    | _, _ => .error "Invalid character"

/-- The cursor-read dispatch of `Client::decode_value` (src/client.rs
lines 288-328): the read is selected by endianness, `mode.size()` and the
signedness flag.  Note that the source reads only a 16-bit integer for
size 8 as well as size 4. -/
def decodeRead (endian : Endian) (mode : DataType) (isSigned : Bool)
    (bytes : List Nat) : Except String Int :=
  match endian with
  | .little =>
    match mode.size with
    | 2 => readU8 bytes
    | 4 =>
      match isSigned with
      | true => readI16le bytes
      | false => readU16le bytes
    | 8 =>
      match isSigned with
      | true => readI16le bytes
      | false => readU16le bytes
    | _ => .error "Unsupported data type size"
  | .big =>
    match mode.size with
    | 2 => readU8 bytes
    | 4 =>
      match isSigned with
      | true => readI16be bytes
      | false => readU16be bytes
    | 8 =>
      match isSigned with
      | true => readI16be bytes
      | false => readU16be bytes
    | _ => .error "Unsupported data type size"
  | .native =>
    match mode.size with
    | 2 => readU8 bytes
    | 4 =>
      match isSigned with
      | true => readI16le bytes
      | false => readU16le bytes
    | 8 =>
      match isSigned with
      | true => readI16le bytes
      | false => readU16le bytes
    | _ => .error "Unsupported data type size"
  | .network => .error "Unsupported endianness"

/-- Model of `Client::decode_value` (src/client.rs lines 277-330), identical to
`Type3E::decode_value` (src/type3e.rs lines 263-316).  In ASCII mode the
buffer is first hex-decoded (`bytes = hex::decode(bytes)?`), then the
cursor-read dispatch `decodeRead` is applied. -/
def decodeValue (comm : CommType) (endian : Endian) (data : List Nat) (mode : DataType)
    (isSigned : Bool) : Except String Int :=
  match comm with
  | .binary => decodeRead endian mode isSigned data
  | .ascii => Except.bind (hexDecode data) (fun bytes => decodeRead endian mode isSigned bytes)

/-- A lowercase hexadecimal digit byte (as produced by `{:x}` formatting). -/
def hexDigitLower (d : Nat) : Nat := if d < 10 then 48 + d else 87 + d

/-- An uppercase hexadecimal digit byte (as produced by `{:X}` formatting). -/
def hexDigitUpper (d : Nat) : Nat := if d < 10 then 48 + d else 55 + d

/-- Model of `format!("{:04x}", n)` for `n < 0x10000`: four lowercase hex digits. -/
def hex4Lower (n : Nat) : List Nat :=
  [hexDigitLower (n / 4096 % 16), hexDigitLower (n / 256 % 16),
   hexDigitLower (n / 16 % 16), hexDigitLower (n % 16)]

/-- Model of `format!("{:04X}", n)` for `n < 0x10000`: four uppercase hex digits. -/
def hex4Upper (n : Nat) : List Nat :=
  [hexDigitUpper (n / 4096 % 16), hexDigitUpper (n / 256 % 16),
   hexDigitUpper (n / 16 % 16), hexDigitUpper (n % 16)]

/-- Model of `MCError::new` (src/err.rs lines 9-13): the stored `error_code` string,
`format!("0x{:04x}", error_code)` — lowercase hex digits. -/
def mcErrorNew (errorCode : Nat) : List Nat := strBytes "0x" ++ hex4Lower errorCode

/-- Model of `MCError::description` (src/err.rs lines 14-36): the stored code string
matched against the fixed table of known MELSEC status codes; an unmatched
code yields `format!("{}: Unknown error code.", self.error_code)`.  The
table keys spell hexadecimal `C` in uppercase. -/
def mcDescription (errorCode : List Nat) : List Nat :=
  if errorCode = strBytes "0x0050" then
    strBytes "0x0050: When \"Communication Data Code\" is set to ASCII Code, ASCII code data that cannot be converted to binary were received."
  else if errorCode = strBytes "0x0051" ∨ errorCode = strBytes "0x0052" ∨
      errorCode = strBytes "0x0053" ∨ errorCode = strBytes "0x0054" then
    strBytes "0x0051-0x0054: The number of read or write points is outside the allowable range."
  else if errorCode = strBytes "0x0055" then
    strBytes "0x0055: Although online change is disabled, the connected device requested the RUN-state CPU module for data writing."
  else if errorCode = strBytes "0xC056" then
    strBytes "0xC056: The read or write request exceeds the maximum address."
  else if errorCode = strBytes "0xC058" then
    strBytes "0xC058: The request data length after ASCII-to-binary conversion does not match the data size of the character area (a part of text data)."
  else if errorCode = strBytes "0xC059" then
    strBytes "0xC059: The command and/or subcommand are specified incorrectly. The CPU module does not support the command and/or subcommand."
  else if errorCode = strBytes "0xC05B" then
    strBytes "0xC05B: The CPU module cannot read data from or write data to the specified device."
  else if errorCode = strBytes "0xC05C" then
    strBytes "0xC05C: The request data is incorrect. (e.g. reading or writing data in units of bits from or to a word device)"
  else if errorCode = strBytes "0xC05D" then
    strBytes "0xC05D: No monitor registration."
  else if errorCode = strBytes "0xC05F" then
    strBytes "0xC05F: The request cannot be executed to the CPU module."
  else if errorCode = strBytes "0xC060" then
    strBytes "0xC060: The request data is incorrect. (ex. incorrect specification of data for bit devices)"
  else if errorCode = strBytes "0xC061" then
    strBytes "0xC061: The request data length does not match the number of data in the character area (a part of text data)."
  else if errorCode = strBytes "0xC06F" then
    strBytes "0xC06F: The CPU module received a request message in ASCII format when \"Communication Data Code is set to Binary Code, or received it in binary format when the setting is set to ASCII Code. (This error code is only registered to the error history, and no abnormal response is returned.)"
  else if errorCode = strBytes "0xC070" then
    strBytes "0xC070: The device memory extension cannot be specified for the target station."
  else if errorCode = strBytes "0xC0B5" then
    strBytes "0xC0B5: The CPU module cannot handle the data specified."
  else if errorCode = strBytes "0xC200" then
    strBytes "0xC200: The remote password is incorrect."
  else if errorCode = strBytes "0xC201" then
    strBytes "0xC201: The port used for communication is locked with the remote password. Or, because of the remote password lock status with \"Communication Data Code\" set to ASCII Code, the subcommand and later part cannot be converted to a binary code."
  else if errorCode = strBytes "0xC204" then
    strBytes "0xC204: The connected device is different from the one that requested for unlock processing of the remote password."
  else errorCode ++ strBytes ": Unknown error code."

/-- Model of `Client::check_mc_error` (src/client.rs lines 332-338): status 0 is Ok,
anything else is an `MCError` carrying the formatted code. -/
def checkMCError (status : Nat) : Except (List Nat) Unit :=
  if status = 0 then .ok () else .error (mcErrorNew status)

/-- Model of `DeviceConstants::get_binary_device_code` (src/db.rs lines 153-201):
device-class name to (binary device code byte, numeric base).  The iQ-R-only
arms guard on the literal string `"iQR_SERIES"` exactly as the source does
(the series constant `consts::IQR_SERIES` is the different string
`"iQ-R"`). -/
def getBinaryDeviceCode (plcType : String) (deviceName : List Nat) :
    Except String (Nat × Nat) :=
  if deviceName = strBytes "SM" then .ok (0x91, 10)
  else if deviceName = strBytes "SD" then .ok (0xA9, 10)
  else if deviceName = strBytes "X" then .ok (0x9C, 16)
  else if deviceName = strBytes "Y" then .ok (0x9D, 16)
  else if deviceName = strBytes "M" then .ok (0x90, 10)
  else if deviceName = strBytes "L" then .ok (0x92, 10)
  else if deviceName = strBytes "F" then .ok (0x93, 10)
  else if deviceName = strBytes "V" then .ok (0x94, 10)
  else if deviceName = strBytes "B" then .ok (0xA0, 16)
  else if deviceName = strBytes "D" then .ok (0xA8, 10)
  else if deviceName = strBytes "W" then .ok (0xB4, 16)
  else if deviceName = strBytes "TS" then .ok (0xC1, 10)
  else if deviceName = strBytes "TC" then .ok (0xC0, 10)
  else if deviceName = strBytes "TN" then .ok (0xC2, 10)
  else if deviceName = strBytes "SS" then .ok (0xC7, 10)
  else if deviceName = strBytes "SC" then .ok (0xC6, 10)
  else if deviceName = strBytes "SN" then .ok (0xC8, 10)
  else if deviceName = strBytes "CS" then .ok (0xC4, 10)
  else if deviceName = strBytes "CC" then .ok (0xC3, 10)
  else if deviceName = strBytes "CN" then .ok (0xC5, 10)
  else if deviceName = strBytes "SB" then .ok (0xA1, 16)
  else if deviceName = strBytes "SW" then .ok (0xB5, 16)
  else if deviceName = strBytes "DX" then .ok (0xA2, 16)
  else if deviceName = strBytes "DY" then .ok (0xA3, 16)
  else if deviceName = strBytes "R" then .ok (0xAF, 10)
  else if deviceName = strBytes "ZR" then .ok (0xB0, 16)
  else if deviceName = strBytes "LTS" ∧ plcType = "iQR_SERIES" then .ok (0x51, 10)
  else if deviceName = strBytes "LTC" ∧ plcType = "iQR_SERIES" then .ok (0x50, 10)
  else if deviceName = strBytes "LTN" ∧ plcType = "iQR_SERIES" then .ok (0x52, 10)
  else if deviceName = strBytes "LSTS" ∧ plcType = "iQR_SERIES" then .ok (0x59, 10)
  else if deviceName = strBytes "LSTC" ∧ plcType = "iQR_SERIES" then .ok (0x58, 10)
  else if deviceName = strBytes "LSTN" ∧ plcType = "iQR_SERIES" then .ok (0x5A, 10)
  else if deviceName = strBytes "LCS" ∧ plcType = "iQR_SERIES" then .ok (0x55, 10)
  else if deviceName = strBytes "LCC" ∧ plcType = "iQR_SERIES" then .ok (0x54, 10)
  else if deviceName = strBytes "LCN" ∧ plcType = "iQR_SERIES" then .ok (0x56, 10)
  else if deviceName = strBytes "LZ" ∧ plcType = "iQR_SERIES" then .ok (0x62, 10)
  else if deviceName = strBytes "RD" ∧ plcType = "iQR_SERIES" then .ok (0x2C, 10)
  else .error "failed to get binary device code for device"

/-- Model of `format!("{:*<width$}", name)`: the name left-aligned, `'*'`-padded
(byte 42) to the given width. -/
def padStar (name : List Nat) (width : Nat) : List Nat :=
  name ++ List.replicate (width - name.length) 42

/-- Model of `DeviceConstants::get_ascii_device_code` (src/db.rs lines 203-243):
device-class name to (padded class string, numeric base).  The padding
width tests `plc_type == consts::IQR_SERIES` (the string `"iQ-R"`), as do
the `STS`/`STC`/`STN` renaming arms; the iQ-R-only arms (`LTS` ... `RD`)
instead guard on the literal `"iQR_SERIES"`, and `LSTC` has no arm at all,
exactly as the source does. -/
def getAsciiDeviceCode (plcType : String) (deviceName : List Nat) :
    Except String (List Nat × Nat) :=
  let padding := if plcType = "iQ-R" then 4 else 2
  let paddedName := padStar deviceName padding
  if deviceName ∈ [strBytes "SM", strBytes "SD", strBytes "X", strBytes "Y",
      strBytes "M", strBytes "L", strBytes "F", strBytes "V", strBytes "B",
      strBytes "D", strBytes "W", strBytes "TS", strBytes "TC", strBytes "TN",
      strBytes "CS", strBytes "CC", strBytes "CN", strBytes "SB", strBytes "SW",
      strBytes "DX", strBytes "DY", strBytes "R", strBytes "ZR"] then
    .ok (paddedName, 16)
  else if deviceName = strBytes "STS" ∧ plcType = "iQ-R" then
    .ok (padStar (strBytes "STS") padding, 10)
  else if deviceName = strBytes "STS" then
    .ok (padStar (strBytes "SS") padding, 10)
  else if deviceName = strBytes "STC" ∧ plcType = "iQ-R" then
    .ok (padStar (strBytes "STC") padding, 10)
  else if deviceName = strBytes "STC" then
    .ok (padStar (strBytes "SC") padding, 10)
  else if deviceName = strBytes "STN" ∧ plcType = "iQ-R" then
    .ok (padStar (strBytes "STN") padding, 10)
  else if deviceName = strBytes "STN" then
    .ok (padStar (strBytes "SN") padding, 10)
  else if deviceName = strBytes "LTS" ∧ plcType = "iQR_SERIES" then .ok (paddedName, 10)
  else if deviceName = strBytes "LTC" ∧ plcType = "iQR_SERIES" then .ok (paddedName, 10)
  else if deviceName = strBytes "LTN" ∧ plcType = "iQR_SERIES" then .ok (paddedName, 10)
  else if deviceName = strBytes "LSTS" ∧ plcType = "iQR_SERIES" then .ok (paddedName, 10)
  else if deviceName = strBytes "LSTN" ∧ plcType = "iQR_SERIES" then .ok (paddedName, 10)
  else if deviceName = strBytes "LCS" ∧ plcType = "iQR_SERIES" then .ok (paddedName, 10)
  else if deviceName = strBytes "LCC" ∧ plcType = "iQR_SERIES" then .ok (paddedName, 10)
  else if deviceName = strBytes "LCN" ∧ plcType = "iQR_SERIES" then .ok (paddedName, 10)
  else if deviceName = strBytes "LZ" ∧ plcType = "iQR_SERIES" then .ok (paddedName, 10)
  else if deviceName = strBytes "RD" ∧ plcType = "iQR_SERIES" then .ok (paddedName, 10)
  else .error "failed to get ascii device code for device"

/-- An ASCII decimal digit byte (`'0'` to `'9'`), as matched by regex
`\d`. -/
def isDigitByte (b : Nat) : Bool := 48 ≤ b && b ≤ 57

/-- Model of `client::get_device_type` (src/client.rs lines 18-24): the first match
of regex `\D+` in the token — the first maximal run of non-digit bytes. -/
def getDeviceType (device : List Nat) : Except String (List Nat) :=
  match device.dropWhile (fun b => isDigitByte b) with
  | [] => .error "Invalid device type"
  | rest => .ok (rest.takeWhile (fun b => !isDigitByte b))

/-- Little-endian base-`base` digit list of `n` (with fuel, structurally
recursive so that the kernel can evaluate it). -/
def digitsLE (base : Nat) : Nat → Nat → List Nat
  | 0, _ => []
  | fuel + 1, n => if n = 0 then [] else n % base :: digitsLE base fuel (n / base)

/-- Decimal formatting of a natural number, as ASCII digit bytes
(`i32` `Display` for non-negative values). -/
def natDecBytes (n : Nat) : List Nat :=
  if n = 0 then [48] else ((digitsLE 10 n n).map (fun d => 48 + d)).reverse

/-- Model of `format!("{}", v)` for an `i32`: decimal digits, `'-'`-prefixed when
negative. -/
def formatI32 (v : Int) : List Nat :=
  if v < 0 then 45 :: natDecBytes (-v).toNat else natDecBytes v.toNat

/-- Value of a list of ASCII decimal digit bytes, most significant
first. -/
def bytesVal (bs : List Nat) : Nat :=
  Nat.ofDigits 10 ((bs.map (fun b => b - 48)).reverse)

/-- Model of `str::parse::<i32>` on the regex match of `\d.*`: succeeds exactly on a
non-empty all-digit byte list whose value fits in an `i32`. -/
def parseI32 (bs : List Nat) : Except String Nat :=
  if bs ≠ [] ∧ bs.all (fun b => isDigitByte b) then
    if bytesVal bs ≤ 2147483647 then .ok (bytesVal bs)
    else .error "number too large to fit in target type"
  else .error "invalid digit found in string"

/-- Model of `client::get_device_index` (src/client.rs lines 26-35): the first match
of regex `\d.*` — from the first digit byte to the end of the token —
parsed as an `i32`. -/
def getDeviceIndex (device : List Nat) : Except String Int :=
  match device.dropWhile (fun b => !isDigitByte b) with
  | [] => .error "Invalid device index"
  | m => Except.map (fun n => Int.ofNat n) (parseI32 m)

/-- Value of a digit byte in a given radix, as accepted by
`i32::from_str_radix` (only radices 10 and 16 occur in the tables). -/
def digitValInBase (base b : Nat) : Option Nat :=
  match hexDigitVal b with
  | some d => if d < base then some d else none
  | none => none

/-- Model of `i32::from_str_radix(s, base)` on the digit strings produced by
`formatI32` of a non-negative index: reinterprets the decimal digit string
in the given base; errors on an empty string, an invalid digit, or
overflow past `i32::MAX`. -/
def fromStrRadix (bs : List Nat) (base : Nat) : Except String Nat :=
  if bs = [] then .error "cannot parse integer from empty string"
  else
    match List.mapM' (digitValInBase base) bs with
    | some ds =>
      if Nat.ofDigits base ds.reverse ≤ 2147483647 then .ok (Nat.ofDigits base ds.reverse)
      else .error "number too large to fit in target type"
    | none => .error "invalid digit found in string"

/-- Model of `format!("{:06x}", n)`: lowercase hex digits, zero-padded to at least
six. -/
def hex6Lower (n : Nat) : List Nat :=
  let ds := ((digitsLE 16 n n).map hexDigitLower).reverse
  List.replicate (6 - ds.length) 48 ++ ds

/-- Model of `Client::build_device_data` (src/client.rs lines 514-557).  Binary
encoding: the device index is formatted back to decimal text and re-parsed
in the resolved base; iQ-R emits the 4-byte device number followed by the
two remaining (zero) bytes of the 6-byte buffer, other series emit the
3 low-order bytes of the number followed by the device code byte.  ASCII
encoding: padded class string followed by six lowercase hex digits.  The
byte order is little-endian when the session endianness is `ENDIAN_LITTLE`
and big-endian otherwise. -/
def buildDeviceData (plcType : String) (comm : CommType) (endian : Endian)
    (device : List Nat) : Except String (List Nat) := do
  let deviceType ← getDeviceType device
  match comm with
  | .binary => do
    let (deviceCode, deviceBase) ← getBinaryDeviceCode plcType deviceType
    let idx ← getDeviceIndex device
    let deviceNumber ← fromStrRadix (formatI32 idx) deviceBase
    if plcType = "iQ-R" then
      let buf := if endian = Endian.little then leBytes 4 deviceNumber
                 else beBytes 4 deviceNumber
      .ok (buf ++ [0, 0])
    else
      let buf := if endian = Endian.little then leBytes 4 deviceNumber
                 else beBytes 4 deviceNumber
      .ok (buf.take 3 ++ [deviceCode % 256])
  | .ascii => do
    let (deviceCodeStr, deviceBase) ← getAsciiDeviceCode plcType deviceType
    let idx ← getDeviceIndex device
    let deviceNumber ← fromStrRadix (formatI32 idx) deviceBase
    .ok (deviceCodeStr ++ hex6Lower deviceNumber)

/-- Session state of `client::Client` (src/client.rs lines 37-89) relevant
to frame building: `new` sets `network = 0`, `pc = 0xFF`,
`dest_moduleio = 0x3FF`, `dest_modulesta = 0`, `timer = 4`, binary
communication, little endianness; `use_e4` selects the `E4` device info
(subheader `0x5400`, mutable serial) over `E3` (subheader `0x5000`). -/
structure Client where
  plcType : String
  commType : CommType
  endian : Endian
  network : Nat
  pc : Nat
  destModuleIo : Nat
  destModuleSta : Nat
  timer : Nat
  useE4 : Bool
  subheaderSerial : Nat

/-- Model of `DeviceInfo::get_subheader` of the client's device info: `0x5400` for
`E4`, `0x5000` for `E3`. -/
def Client.subheader (c : Client) : Nat := if c.useE4 then 0x5400 else 0x5000

/-- Model of `DeviceInfo::get_subheader_serial`: the stored serial for `E4`, the
constant 0 for `E3` (src/device_info.rs lines 38-40, 75-77). -/
def Client.serialOf (c : Client) : Nat := if c.useE4 then c.subheaderSerial else 0

/-- Model of `DeviceInfo::get_response_data_index` (src/device_info.rs): `E3` 11/22,
`E4` 15/30 for binary/ascii. -/
def Client.responseDataIndex (c : Client) : Nat :=
  if c.useE4 then (match c.commType with | .binary => 15 | .ascii => 30)
  else (match c.commType with | .binary => 11 | .ascii => 22)

/-- Model of `DeviceInfo::get_response_status_index` (src/device_info.rs): `E3`
9/18, `E4` 13/26 for binary/ascii. -/
def Client.responseStatusIndex (c : Client) : Nat :=
  if c.useE4 then (match c.commType with | .binary => 13 | .ascii => 26)
  else (match c.commType with | .binary => 9 | .ascii => 18)

/-- Subheader emission: `write_u16::<BigEndian>` of the subheader in binary
mode, `format!("{:04X}", subheader)` as text in ASCII mode. -/
def subheaderBytes (comm : CommType) (subheader : Nat) : List Nat :=
  match comm with
  | .binary => beBytes 2 subheader
  | .ascii => hex4Upper subheader

/-- Model of `Client::build_send_data` (src/client.rs lines 159-208).  Emits the
subheader, then — unconditionally — the subheader serial and a reserved
zero as SWORDs, then (only when `use_e4` is false) the subheader a second
time, then network, pc, destination module I/O, destination module status,
the body length `_wordsize + request_data.len()`, the timer, and the
request data. -/
def clientBuildSendData (c : Client) (requestData : List Nat) :
    Except String (List Nat) := do
  let head := subheaderBytes c.commType c.subheader
  let serialF ← encodeValue c.endian (c.serialOf : Int) DataType.SWORD false
  let reservedF ← encodeValue c.endian 0 DataType.SWORD false
  let extraHead := if c.useE4 then [] else subheaderBytes c.commType c.subheader
  let networkF ← encodeValue c.endian (c.network : Int) DataType.BIT false
  let pcF ← encodeValue c.endian (c.pc : Int) DataType.BIT false
  let moduleIoF ← encodeValue c.endian (c.destModuleIo : Int) DataType.SWORD false
  let moduleStaF ← encodeValue c.endian (c.destModuleSta : Int) DataType.BIT false
  let lengthF ← encodeValue c.endian
    ((wordSizeOf c.commType + requestData.length : Nat) : Int) DataType.SWORD false
  let timerF ← encodeValue c.endian (c.timer : Int) DataType.SWORD false
  .ok (head ++ serialF ++ reservedF ++ extraHead ++ networkF ++ pcF ++ moduleIoF ++
    moduleStaF ++ lengthF ++ timerF ++ requestData)

/-- Model of `Type3E::build_send_data` (src/type3e.rs lines 164-194): subheader,
then directly network, pc, destination module I/O, destination module
status, body length, timer, request data. -/
def type3eBuildSendData (comm : CommType) (endian : Endian)
    (subheader network pc destModuleIo destModuleSta timer : Nat)
    (requestData : List Nat) : Except String (List Nat) := do
  let head := subheaderBytes comm subheader
  let networkF ← encodeValue endian (network : Int) DataType.BIT false
  let pcF ← encodeValue endian (pc : Int) DataType.BIT false
  let moduleIoF ← encodeValue endian (destModuleIo : Int) DataType.SWORD false
  let moduleStaF ← encodeValue endian (destModuleSta : Int) DataType.BIT false
  let lengthF ← encodeValue endian
    ((wordSizeOf comm + requestData.length : Nat) : Int) DataType.SWORD false
  let timerF ← encodeValue endian (timer : Int) DataType.SWORD false
  .ok (head ++ networkF ++ pcF ++ moduleIoF ++ moduleStaF ++ lengthF ++ timerF ++
    requestData)

/-- Model of `Type4E::build_send_data` (src/type4e.rs lines 44-92): subheader, then
the subheader serial and a reserved zero as SWORDs, then the same routing
fields, body length, timer, request data. -/
def type4eBuildSendData (comm : CommType) (endian : Endian)
    (subheader subheaderSerial network pc destModuleIo destModuleSta timer : Nat)
    (requestData : List Nat) : Except String (List Nat) := do
  let head := subheaderBytes comm subheader
  let serialF ← encodeValue endian (subheaderSerial : Int) DataType.SWORD false
  let reservedF ← encodeValue endian 0 DataType.SWORD false
  let networkF ← encodeValue endian (network : Int) DataType.BIT false
  let pcF ← encodeValue endian (pc : Int) DataType.BIT false
  let moduleIoF ← encodeValue endian (destModuleIo : Int) DataType.SWORD false
  let moduleStaF ← encodeValue endian (destModuleSta : Int) DataType.BIT false
  let lengthF ← encodeValue endian
    ((wordSizeOf comm + requestData.length : Nat) : Int) DataType.SWORD false
  let timerF ← encodeValue endian (timer : Int) DataType.SWORD false
  .ok (head ++ serialF ++ reservedF ++ networkF ++ pcF ++ moduleIoF ++ moduleStaF ++
    lengthF ++ timerF ++ requestData)

/-- The BIT/binary decoding loop of `Client::batch_read` (src/client.rs
lines 385-410), carried over the remaining loop indices and the mutable
`data_index`.  Faithfully, the loop body executes
`data_index = index / 2 + data_index`, accumulating the previous value
instead of adding the offset `index / 2` to the fixed start position.
Reading past the response buffer is a Rust panic, modelled as `none`. -/
def batchBitBinaryAux (decode : Bool) (recv : List Nat) :
    List Nat → Nat → Option (List Int)
  | [], _ => some []
  | index :: rest, dataIndex =>
    let dataIndex2 := index / 2 + dataIndex
    match recv.get? dataIndex2 with
    | none => none
    | some value =>
      let bitValue : Int :=
        if decode then
          if index % 2 = 0 then (if value &&& (1 <<< 4) ≠ 0 then 1 else 0)
          else (if value &&& (1 <<< 0) ≠ 0 then 1 else 0)
        else (value : Int)
      (batchBitBinaryAux decode recv rest dataIndex2).map (fun vs => bitValue :: vs)

/-- The list of values produced by the BIT/binary branch of
`Client::batch_read` for `read_size` elements, starting at the response
data index. -/
def batchBitBinary (decode : Bool) (recv : List Nat) (start readSize : Nat) :
    Option (List Int) :=
  batchBitBinaryAux decode recv (List.range readSize) start

/-- The BIT/ASCII decoding loop of `Client::batch_read` (src/client.rs
lines 411-425): for each element the byte at `data_index` is read —
`recv_data[data_index] as i32` in the `decode` branch and the identical
expression in the other branch — and `data_index` advances by one. -/
def batchBitAsciiAux (decode : Bool) (recv : List Nat) :
    Nat → Nat → Option (List Int)
  | _, 0 => some []
  | dataIndex, k + 1 =>
    match recv.get? dataIndex with
    | none => none
    | some value =>
      let bitValue : Int := if decode then (value : Int) else (value : Int)
      (batchBitAsciiAux decode recv (dataIndex + 1) k).map (fun vs => bitValue :: vs)

/-- The list of values produced by the BIT/ASCII branch of
`Client::batch_read` for `read_size` elements, starting at the response
data index. -/
def batchBitAscii (decode : Bool) (recv : List Nat) (start readSize : Nat) :
    Option (List Int) :=
  batchBitAsciiAux decode recv start readSize

/-- Rust slice `bs[start..stop]`: errors (panics) when the range is out of
bounds. -/
def sliceRange (bs : List Nat) (start stop : Nat) : Except String (List Nat) :=
  if start ≤ stop ∧ stop ≤ bs.length then .ok ((bs.drop start).take (stop - start))
  else .error "slice index out of range"

/-- The words count of `Client::read` / `Client::write` (src/client.rs
lines 580-585 and 650-653): the running sum of `data_type.size() / 2` over
all elements. -/
def wordsCount (ts : List DataType) : Nat :=
  ts.foldl (fun acc t => acc + t.size / 2) 0

/-- The device-address expansion of one element of `Client::read`
(src/client.rs lines 592-606): an element whose `size / 2` exceeds 1 is
split into `size / 2` device blocks, the device index incremented by one
per block; otherwise a single block for the element's own device. -/
def readTagBlocks (plcType : String) (comm : CommType) (endian : Endian)
    (device : List Nat) (t : DataType) : Except String (List (List Nat)) :=
  let elementSize := t.size / 2
  if elementSize > 1 then do
    let deviceType ← getDeviceType device
    let deviceIndex ← getDeviceIndex device
    List.mapM'
      (fun (k : Nat) => buildDeviceData plcType comm endian
        (deviceType ++ formatI32 (deviceIndex + (k : Int))))
      (List.range elementSize)
  else do
    let block ← buildDeviceData plcType comm endian device
    .ok [block]

/-- The request bytes contributed by one element of `Client::read`: the
concatenation of its device blocks. -/
def readTagRequest (plcType : String) (comm : CommType) (endian : Endian)
    (device : List Nat) (t : DataType) : Except String (List Nat) :=
  (readTagBlocks plcType comm endian device t).map List.flatten

/-- The request bytes contributed by one non-BIT element of
`Client::write` (src/client.rs lines 674-698): the value is encoded once;
an element whose `size / 2` exceeds 1 is split into `size / 2` device
blocks each followed by the next `_wordsize` bytes of the encoded value
(`temp_tag_value[data_index..data_index + self._wordsize]`, a panic — an
error here — when the encoded value is shorter); otherwise a single device
block followed by the whole encoded value. -/
def writeTagRequest (plcType : String) (comm : CommType) (endian : Endian)
    (device : List Nat) (t : DataType) (value : Int) : Except String (List Nat) :=
  let wordsize := wordSizeOf comm
  let elementSize := t.size / 2
  if elementSize > 1 then do
    let deviceType ← getDeviceType device
    let deviceIndex ← getDeviceIndex device
    let tempTagValue ← encodeValue endian value t false
    let blocks ← List.mapM' (fun (k : Nat) => do
      let block ← buildDeviceData plcType comm endian
        (deviceType ++ formatI32 (deviceIndex + (k : Int)))
      let chunk ← sliceRange tempTagValue (k * wordsize) (k * wordsize + wordsize)
      Except.ok (block ++ chunk)) (List.range elementSize)
    .ok blocks.flatten
  else do
    let block ← buildDeviceData plcType comm endian device
    let valueF ← encodeValue endian value t false
    .ok (block ++ valueF)

/-- The response decoding loop of `Client::read` (src/client.rs lines
621-636), over the remaining element types and the mutable `data_index`:
each element takes `size` response bytes
(`recv_data[data_index..data_index + size]`) but decodes them with
`DataType::BIT`, unsigned. -/
def randomReadValuesAux (comm : CommType) (endian : Endian) (recv : List Nat) :
    List DataType → Nat → Except String (List Int)
  | [], _ => .ok []
  | t :: rest, dataIndex => do
    let slice ← sliceRange recv dataIndex (dataIndex + t.size)
    let v ← decodeValue comm endian slice DataType.BIT false
    let vs ← randomReadValuesAux comm endian recv rest (dataIndex + t.size)
    .ok (v :: vs)

/-- The list of values produced by `Client::read` from a response buffer,
starting at the response data index. -/
def randomReadValues (comm : CommType) (endian : Endian) (recv : List Nat)
    (ts : List DataType) (start : Nat) : Except String (List Int) :=
  randomReadValuesAux comm endian recv ts start

/-- Modelled from the spec (claim C9): in ASCII-mode BIT batch read each
element is the raw response byte at its position, reinterpreted as an
integer, regardless of the decode flag. -/
def asciiBitReadSpec (recv : List Nat) (start readSize : Nat) : Option (List Int) :=
  (List.mapM' (fun i => recv.get? (start + i)) (List.range readSize)).map
    (List.map (fun (b : Nat) => (b : Int)))


/-- The truncation actually realised by an encode/decode round trip in
binary mode under `ENDIAN_LITTLE`: width-2 types keep the low byte, wider
types keep the low 16 bits (two's-complement signed when the flag is
set). -/
def truncRT (t : DataType) (s : Bool) (v : Int) : Int :=
  if t.size = 2 then v % 256
  else if s then (if v % 65536 < 32768 then v % 65536 else v % 65536 - 65536)
  else v % 65536

/-- The byte count actually emitted by `encode_value` for each endianness
and type width: one byte for width 2 everywhere; two bytes (16-bit) for
width 4 and four bytes (32-bit) for width 8 under `ENDIAN_LITTLE`; four
bytes (32-bit) for both widths 4 and 8 under `ENDIAN_BIG`; eight bytes
(64-bit) for both under `ENDIAN_NATIVE`. -/
def encodedLen (endian : Endian) (t : DataType) : Nat :=
  match endian with
  | .little => (match t.size with | 2 => 1 | 4 => 2 | _ => 4)
  | .big => (match t.size with | 2 => 1 | _ => 4)
  | .native => (match t.size with | 2 => 1 | _ => 8)
  | .network => 0

theorem leBytes_length (k n : Nat) : (leBytes k n).length = k := by
  induction k generalizing n with
  | zero => rfl
  | succ k ih => simp [leBytes, ih]

theorem twosComp_cast (w : Nat) (v : Int) :
    ((twosComp w v : Nat) : Int) = v % ((2 : Int) ^ (8 * w)) := by
  have := Int.emod_nonneg v (b := (2 : Int) ^ (8 * w)) (by positivity)
  simp [twosComp, Int.toNat_of_nonneg this]

theorem twosComp_lt (w : Nat) (v : Int) : twosComp w v < 2 ^ (8 * w) := by
  have h1 : (0 : Int) < (2 : Int) ^ (8 * w) := by positivity
  have h2 := Int.emod_lt_of_pos v h1
  have h3 := twosComp_cast w v
  have h4 : ((2 : Int) ^ (8 * w)) = ((2 ^ (8 * w) : Nat) : Int) := by push_cast; ring
  omega

/-- C1 helper: the round trip for a width-2 type. -/
theorem roundtrip_w2 (v : Int) :
    readU8 [twosComp 1 v] = .ok (v % 256) := by
  have h := twosComp_cast 1 v
  norm_num at h
  simp [readU8, h]

/-- C1 helper: unsigned 16-bit read of the 2-byte encoding. -/
theorem roundtrip_w4u (v : Int) :
    readU16le (leBytes 2 (twosComp 2 v)) = .ok (v % 65536) := by
  have hc := twosComp_cast 2 v
  have hl := twosComp_lt 2 v
  norm_num at hc hl
  simp only [leBytes, readU16le, Except.ok.injEq]
  omega

/-- C1 helper: signed 16-bit read of the 2-byte encoding. -/
theorem roundtrip_w4s (v : Int) :
    readI16le (leBytes 2 (twosComp 2 v)) =
      .ok (if v % 65536 < 32768 then v % 65536 else v % 65536 - 65536) := by
  have hc := twosComp_cast 2 v
  have hl := twosComp_lt 2 v
  norm_num at hc hl
  simp only [leBytes, readI16le, Except.ok.injEq]
  split_ifs <;> omega

/-- C1 helper: unsigned 16-bit read of the 4-byte encoding keeps only the
low 16 bits. -/
theorem roundtrip_w8u (v : Int) :
    readU16le (leBytes 4 (twosComp 4 v)) = .ok (v % 65536) := by
  have hc := twosComp_cast 4 v
  have hl := twosComp_lt 4 v
  norm_num at hc hl
  simp only [leBytes, readU16le, Except.ok.injEq]
  omega

/-- C1 helper: signed 16-bit read of the 4-byte encoding. -/
theorem roundtrip_w8s (v : Int) :
    readI16le (leBytes 4 (twosComp 4 v)) =
      .ok (if v % 65536 < 32768 then v % 65536 else v % 65536 - 65536) := by
  have hc := twosComp_cast 4 v
  have hl := twosComp_lt 4 v
  norm_num at hc hl
  simp only [leBytes, readI16le, Except.ok.injEq]
  split_ifs <;> omega

/-- C1 (counterexample): the claim says the round trip returns the value
truncated to the type's byte width; for the 8-byte type `DOUBLE` (width 8,
truncation would keep `0x12345678` intact) the round trip under the
session's little endianness returns only the low 16 bits `0x5678`. -/
theorem c1_roundtrip_counterexample :
    ((encodeValue .little 305419896 .DOUBLE false).bind
      (fun bs => decodeValue .binary .little bs .DOUBLE false)) = .ok 22136 ∧
    (22136 : Int) ≠ 305419896 := by
  exact ⟨by decide, by decide⟩

/-- C1 (amended): in binary wire encoding under the session's
`ENDIAN_LITTLE` endianness, for every data type, signedness flag and value,
encode followed by decode returns the value truncated to the low byte for
width-2 types and to the low 16 bits for width-4 and width-8 types
(two's-complement signed when the flag is set). -/
theorem c1_roundtrip_little (v : Int) (t : DataType) (s : Bool) :
    ((encodeValue .little v t s).bind
      (fun bs => decodeValue .binary .little bs t s)) = .ok (truncRT t s v) := by
  cases t <;> cases s <;>
    first
      | exact roundtrip_w2 v
      | exact roundtrip_w4u v
      | exact roundtrip_w4s v
      | exact roundtrip_w8u v
      | exact roundtrip_w8s v

/-- C6 (counterexample): the claim says `encode_value` with a width-4 type
emits a 16-bit integer under every endianness; under `ENDIAN_BIG` the
source writes a 32-bit integer, so the output has four bytes, not two. -/
theorem c6_encode_counterexample :
    (encodeValue .big 17 .SDWORD false).map List.length = .ok 4 ∧ (4 : Nat) ≠ 2 := by
  exact ⟨by decide, by decide⟩

/-- C6 (amended): the byte count emitted by `encode_value` is `encodedLen`:
width 2 gives one byte under every endianness; width 4 / width 8 give a
16-bit / 32-bit integer under `ENDIAN_LITTLE`, but both give a 32-bit
integer under `ENDIAN_BIG` and a 64-bit integer under `ENDIAN_NATIVE`;
`ENDIAN_NETWORK` (never selectable for a session) is the unsupported
endianness error. -/
theorem c6_encode_widths (v : Int) (t : DataType) (s : Bool) :
    (encodeValue .little v t s).map List.length = .ok (encodedLen .little t) ∧
    (encodeValue .big v t s).map List.length = .ok (encodedLen .big t) ∧
    (encodeValue .native v t s).map List.length = .ok (encodedLen .native t) ∧
    encodeValue .network v t s = .error "Unsupported endianness" := by
  cases t <;> cases s <;>
    refine ⟨?_, ?_, ?_, rfl⟩ <;>
      simp [encodeValue, encodedLen, beBytes, leBytes_length, DataType.size, Except.map]

/-- C2: status 0 passes `check_mc_error`; a non-zero status carries the
code formatted `0x%04x` (lowercase).  But because the formatting is
lowercase while the description table's keys spell the hex `C` uppercase,
`from_status(0xC059)` does not reach the command/subcommand arm: its
description is the generic unknown-code message.  The fourth conjunct
shows the command/subcommand text is keyed on the uppercase string
`"0xC059"`, which `MCError::new` can never produce. -/
theorem c2_error_taxonomy_eval :
    checkMCError 0 = .ok () ∧
    checkMCError 0xC059 = .error (strBytes "0xc059") ∧
    mcErrorNew 0xC059 = strBytes "0xc059" ∧
    mcDescription (mcErrorNew 0xC059) = strBytes "0xc059: Unknown error code." ∧
    mcDescription (strBytes "0xC059") = strBytes "0xC059: The command and/or subcommand are specified incorrectly. The CPU module does not support the command and/or subcommand." := by
  exact ⟨by decide, by decide, by decide, by decide, by decide⟩

/-- C3: batch-read BIT decoding in binary mode, on the E3 binary data
offset 11 with response data bytes `[0x10, 0x01, 0x00]`.  The claim says
element `i` is read from byte `data_offset + i / 2`, so element 3 would
read bit 0 of byte 12 (`0x01`, bit 0 set — the third conjunct) and decode
to 1; the source instead accumulates `data_index = index / 2 + data_index`
and reads element 3 from byte 13 (`0x00`), decoding the four elements to
`[1, 0, 0, 0]`.  The first two elements do read byte 11 (`0x10`): bit 4
gives 1 at the even sub-index and bit 0 gives 0 at the odd sub-index, as
the claim states. -/
theorem c3_bit_unpack_eval :
    batchBitBinary true (List.replicate 11 0 ++ [0x10, 0x01, 0x00]) 11 4 =
      some [1, 0, 0, 0] ∧
    (List.replicate 11 0 ++ [0x10, 0x01, 0x00]).get? (11 + 3 / 2) = some 0x01 ∧
    (0x01 &&& (1 <<< 0) ≠ 0) ∧
    Client.responseDataIndex
      { plcType := "Q", commType := .binary, endian := .little, network := 0,
        pc := 0xFF, destModuleIo := 0x3FF, destModuleSta := 0, timer := 4,
        useE4 := false, subheaderSerial := 0 } = 11 := by
  exact ⟨by decide, by decide, by decide, by decide⟩

/-- C4: for the series string `"iQ-R"` (the value of `consts::IQR_SERIES`
carried by a validly constructed client) every iQ-R-only device class
fails to resolve, in both the binary and the ASCII table, because the
source's guards compare against the literal string `"iQR_SERIES"`; the
last conjunct shows the `LTS` binary arm does fire for that impossible
literal. -/
theorem c4_iqr_gating_eval :
    ([strBytes "LTS", strBytes "LTC", strBytes "LTN", strBytes "LSTS",
      strBytes "LSTC", strBytes "LSTN", strBytes "LCS", strBytes "LCC",
      strBytes "LCN", strBytes "LZ", strBytes "RD"].all
        (fun c => !(getBinaryDeviceCode "iQ-R" c).isOk &&
          !(getAsciiDeviceCode "iQ-R" c).isOk)) = true ∧
    getBinaryDeviceCode "iQR_SERIES" (strBytes "LTS") = .ok (0x51, 10) := by
  exact ⟨by decide, by decide⟩

/-- C5: transport-header shape at the default routing values (network 0,
pc 0xFF, module I/O 0x3FF, module status 0, timer 4), binary encoding,
empty payload.  `Type3E::build_send_data` emits the subheader followed
immediately by the routing fields, as the claim states; but
`Client::build_send_data` with `use_e4 = false` emits the subheader, a
zero serial byte, a zero reserved byte, and the subheader a second time
before the routing fields.  The FourE frames (`Client` with
`use_e4 = true`, and `Type4E`) carry subheader, serial, reserved zero,
then the routing fields, as claimed. -/
theorem c5_transport_header_eval :
    clientBuildSendData
      { plcType := "Q", commType := .binary, endian := .little, network := 0,
        pc := 0xFF, destModuleIo := 0x3FF, destModuleSta := 0, timer := 4,
        useE4 := false, subheaderSerial := 0 } [] =
      .ok [0x50, 0x00, 0, 0, 0x50, 0x00, 0, 0xFF, 0xFF, 0, 2, 4] ∧
    type3eBuildSendData .binary .little 0x5000 0 0xFF 0x3FF 0 4 [] =
      .ok [0x50, 0x00, 0, 0xFF, 0xFF, 0, 2, 4] ∧
    clientBuildSendData
      { plcType := "Q", commType := .binary, endian := .little, network := 0,
        pc := 0xFF, destModuleIo := 0x3FF, destModuleSta := 0, timer := 4,
        useE4 := true, subheaderSerial := 0 } [] =
      .ok [0x54, 0x00, 0, 0, 0, 0xFF, 0xFF, 0, 2, 4] ∧
    type4eBuildSendData .binary .little 0x5400 0 0 0xFF 0x3FF 0 4 [] =
      .ok [0x54, 0x00, 0, 0, 0, 0xFF, 0xFF, 0, 2, 4] := by
  exact ⟨by decide, by decide, by decide, by decide⟩

theorem except_bind_ok {ε α β : Type} (a : α) (f : α → Except ε β) :
    (Except.ok a : Except ε α) >>= f = f a := rfl

theorem except_bind_err {ε α β : Type} (e : ε) (f : α → Except ε β) :
    (Except.error e : Except ε α) >>= f = .error e := rfl

theorem except_bind_ok2 {ε α β : Type} (a : α) (f : α → Except ε β) :
    Except.bind (Except.ok a) f = f a := rfl

theorem except_bind_err2 {ε α β : Type} (e : ε) (f : α → Except ε β) :
    Except.bind (Except.error e : Except ε α) f = .error e := rfl

theorem mapM_comp_map {α β γ : Type} (g : α → β) (f : β → Option γ) (l : List α) :
    List.mapM' f (l.map g) = List.mapM' (fun a => f (g a)) l := by
  induction l with
  | nil => rfl
  | cons a l ih => simp [List.mapM', ih]

/-- C9: in the ASCII branch of batch-read BIT decoding, the value list is
the raw response bytes at consecutive positions reinterpreted as integers,
for either value of the decode flag — the flag has no effect on that
branch. -/
theorem c9_ascii_bit_noninterference (decode : Bool) (recv : List Nat)
    (start readSize : Nat) :
    batchBitAscii decode recv start readSize = asciiBitReadSpec recv start readSize := by
  unfold batchBitAscii asciiBitReadSpec
  induction readSize generalizing start with
  | zero => rfl
  | succ n ih =>
    rw [batchBitAsciiAux, List.range_succ_eq_map]
    simp only [List.mapM', mapM_comp_map]
    have harg : (fun i => recv[start + (i + 1)]?) =
        (fun i => recv[start + 1 + i]?) := by
      funext i
      congr 1
      omega
    have hs := ih (start + 1)
    simp only [List.get?_eq_getElem?] at hs
    cases hg : recv.get? start with
    | none =>
      rw [List.get?_eq_getElem?] at hg
      simp [hg]
    | some v =>
      rw [List.get?_eq_getElem?] at hg
      simp [hg, ite_self, hs, harg, Option.map_map, Option.map_eq_bind, Function.comp]
      cases hm : List.mapM' (fun i => recv[start + 1 + i]?) (List.range n) with
      | none => rfl
      | some bs => simp [hm]

theorem hexDigitVal_lt (b d : Nat) (h : hexDigitVal b = some d) : d < 16 := by
  unfold hexDigitVal at h
  split_ifs at h <;> simp only [Option.some.injEq] at h <;> omega

theorem hexDecode_bytes_lt (data out : List Nat) (h : hexDecode data = .ok out) :
    ∀ b ∈ out, b < 256 := by
  induction data using hexDecode.induct generalizing out with
  | case1 =>
    unfold hexDecode at h
    injection h with h
    subst h
    simp
  | case2 x =>
    exact absurd h (by simp [hexDecode])
  | case3 a b rest hi lo hhb hha ih =>
    unfold hexDecode at h
    rw [hha, hhb] at h
    cases hr : hexDecode rest with
    | error e => rw [hr] at h; exact absurd h (by simp [Except.map])
    | ok t =>
      rw [hr] at h
      injection h with h
      subst h
      intro x hx
      rcases List.mem_cons.mp hx with h | h
      · have h1 := hexDigitVal_lt a hi hha
        have h2 := hexDigitVal_lt b lo hhb
        omega
      · exact ih t hr x h
  | case4 a b rest hnot =>
    unfold hexDecode at h
    cases hha : hexDigitVal a with
    | some hi =>
      cases hhb : hexDigitVal b with
      | some lo => exact (hnot hi lo hha hhb).elim
      | none => rw [hha, hhb] at h; exact absurd h (by simp)
    | none =>
      cases hhb : hexDigitVal b with
      | some lo => rw [hha, hhb] at h; exact absurd h (by simp)
      | none => rw [hha, hhb] at h; exact absurd h (by simp)

theorem readU8_ok (bs : List Nat) (v : Int) (h : readU8 bs = .ok v) :
    ∃ b rest, bs = b :: rest ∧ v = (b : Int) := by
  cases bs with
  | nil => exact absurd h (by simp [readU8])
  | cons b rest =>
    unfold readU8 at h
    injection h with h
    exact ⟨b, rest, rfl, h.symm⟩

/-- C10 helper: a decode through the BIT path yields the first byte of the
(possibly hex-decoded) buffer, a value in `[0, 256)`. -/
theorem decodeValue_bit_range (comm : CommType) (endian : Endian) (data : List Nat)
    (v : Int) (hb : ∀ b ∈ data, b < 256)
    (h : decodeValue comm endian data DataType.BIT false = .ok v) : 0 ≤ v ∧ v < 256 := by
  have range_of : ∀ bytes : List Nat, (∀ b ∈ bytes, b < 256) →
      readU8 bytes = .ok v → 0 ≤ v ∧ v < 256 := by
    intro bytes hlt hr
    obtain ⟨b, rest, rfl, rfl⟩ := readU8_ok bytes v hr
    have := hlt b (List.mem_cons_self b rest)
    omega
  have hread : ∀ (e : Endian) (bytes : List Nat), (∀ b ∈ bytes, b < 256) →
      decodeRead e DataType.BIT false bytes = .ok v → 0 ≤ v ∧ v < 256 := by
    intro e bytes hlt hr
    cases e with
    | little => exact range_of bytes hlt hr
    | big => exact range_of bytes hlt hr
    | native => exact range_of bytes hlt hr
    | network => exact absurd hr (by simp [decodeRead])
  cases comm with
  | binary => exact hread endian data hb h
  | ascii =>
    cases hx : hexDecode data with
    | error e =>
      unfold decodeValue at h
      rw [hx] at h
      exact absurd h (by simp [except_bind_err2])
    | ok out =>
      unfold decodeValue at h
      rw [hx, except_bind_ok2] at h
      exact hread endian out (hexDecode_bytes_lt data out hx) h

/-- C10: in the response decoding of `Client::read`, every tag's value is
produced by the BIT decode path regardless of the tag's declared data
type — only the first byte of the tag's response slice (after hex-decoding
in ASCII mode) is interpreted, as a single unsigned byte — so every
returned value lies in `[0, 256)`. -/
theorem c10_random_read_bit_range (comm : CommType) (endian : Endian) (recv : List Nat)
    (ts : List DataType) (start : Nat) (vs : List Int)
    (hb : ∀ b ∈ recv, b < 256)
    (h : randomReadValues comm endian recv ts start = .ok vs) :
    ∀ v ∈ vs, 0 ≤ v ∧ v < 256 := by
  induction ts generalizing start vs with
  | nil =>
    unfold randomReadValues randomReadValuesAux at h
    injection h with h
    subst h
    simp
  | cons t rest ih =>
    unfold randomReadValues randomReadValuesAux at h
    cases hs : sliceRange recv start (start + t.size) with
    | error e =>
      rw [hs] at h
      exact absurd h (by simp [except_bind_err])
    | ok slice =>
      rw [hs] at h
      simp only [except_bind_ok] at h
      cases hv : decodeValue comm endian slice DataType.BIT false with
      | error e =>
        rw [hv] at h
        exact absurd h (by simp [except_bind_err])
      | ok v0 =>
        rw [hv] at h
        simp only [except_bind_ok] at h
        cases hr : randomReadValuesAux comm endian recv rest (start + t.size) with
        | error e =>
          rw [hr] at h
          exact absurd h (by simp [except_bind_err])
        | ok vs0 =>
          rw [hr] at h
          simp only [except_bind_ok] at h
          injection h with h
          subst h
          intro v hvmem
          rcases List.mem_cons.mp hvmem with rfl | hm
          · have hslice : ∀ b ∈ slice, b < 256 := by
              intro b hbm
              apply hb
              have hsub : slice.Sublist recv := by
                unfold sliceRange at hs
                split at hs
                · injection hs with hs
                  subst hs
                  exact ((recv.drop start).take_sublist _).trans (recv.drop_sublist start)
                · exact absurd hs (by simp)
              exact hsub.subset hbm
            exact decodeValue_bit_range comm endian slice v hslice hv
          · exact ih (start + t.size) vs0 hr v hm

/-- Witness for C10 at a concrete input: reading one `DOUBLE`-typed tag
from the byte buffer `[7, 250, 3, 4, 5, 6, 7, 8]` yields the single value
7 — the first byte of the 8-byte slice — and every produced value is in
`[0, 256)`. -/
theorem c10_random_read_bit_range_witness :
    (∀ b ∈ ([7, 250, 3, 4, 5, 6, 7, 8] : List Nat), b < 256) ∧
    randomReadValues .binary .little [7, 250, 3, 4, 5, 6, 7, 8] [DataType.DOUBLE] 0 =
      .ok [7] ∧
    (∀ v ∈ ([7] : List Int), 0 ≤ v ∧ v < 256) :=
  ⟨by decide, by decide,
    c10_random_read_bit_range .binary .little [7, 250, 3, 4, 5, 6, 7, 8]
      [DataType.DOUBLE] 0 [7] (by decide) (by decide)⟩

theorem twosComp_ofNat_lt (n : Nat) (h : n < 256) : twosComp 1 (n : Int) = n := by
  unfold twosComp
  norm_num
  omega

/-- C8: for every request payload, the body-length field emitted by the
frame builders (both `Client::build_send_data` and
`Type3E::build_send_data`) is the SWORD encoding of
`_wordsize + request_data.len()`, recomputed from the actual payload; when
that sum fits the emitted byte (an SWORD field is written as one byte) it
equals the sum itself, placed immediately before the timer field and the
payload.  The word size is 2 in binary wire encoding and 4 in ASCII. -/
theorem c8_body_length (plc : String) (comm : CommType)
    (network pc io sta timer serial : Nat) (use4 : Bool) (requestData : List Nat)
    (hlen : wordSizeOf comm + requestData.length < 256) :
    clientBuildSendData
      ⟨plc, comm, .little, network, pc, io, sta, timer, use4, serial⟩ requestData =
      .ok (subheaderBytes comm (if use4 then 0x5400 else 0x5000) ++
        twosComp 1 (((if use4 then serial else 0) : Nat) : Int) :: twosComp 1 (0 : Int) ::
        ((if use4 then [] else subheaderBytes comm (if use4 then 0x5400 else 0x5000)) ++
          twosComp 1 (network : Int) :: twosComp 1 (pc : Int) :: twosComp 1 (io : Int) ::
          twosComp 1 (sta : Int) :: (wordSizeOf comm + requestData.length) ::
          twosComp 1 (timer : Int) :: requestData)) ∧
    type3eBuildSendData comm .little 0x5000 network pc io sta timer requestData =
      .ok (subheaderBytes comm 0x5000 ++
        twosComp 1 (network : Int) :: twosComp 1 (pc : Int) :: twosComp 1 (io : Int) ::
        twosComp 1 (sta : Int) :: (wordSizeOf comm + requestData.length) ::
        twosComp 1 (timer : Int) :: requestData) ∧
    wordSizeOf .binary = 2 ∧ wordSizeOf .ascii = 4 := by
  have hfield : twosComp 1 ((wordSizeOf comm : Int) + (requestData.length : Int)) =
      wordSizeOf comm + requestData.length := by
    rw [← Nat.cast_add]
    exact twosComp_ofNat_lt _ hlen
  refine ⟨?_, ?_, rfl, rfl⟩
  · unfold clientBuildSendData
    simp [encodeValue, DataType.size, except_bind_ok, hfield, Client.subheader,
      Client.serialOf, Client.commType, Client.endian, Client.network, Client.pc,
      Client.destModuleIo, Client.destModuleSta, Client.timer, Client.useE4,
      Client.subheaderSerial]
  · unfold type3eBuildSendData
    simp [encodeValue, DataType.size, except_bind_ok, hfield]

/-- Witness for C8 at a concrete input: an E4 binary frame with payload
`[1, 2, 3]` carries body length `2 + 3 = 5` before the timer byte. -/
theorem c8_body_length_witness :
    wordSizeOf .binary + ([1, 2, 3] : List Nat).length < 256 ∧
    (clientBuildSendData ⟨"Q", .binary, .little, 0, 255, 1023, 0, 4, true, 5⟩ [1, 2, 3] =
      .ok (subheaderBytes .binary (if true then 0x5400 else 0x5000) ++
        twosComp 1 (((if true then 5 else 0) : Nat) : Int) :: twosComp 1 (0 : Int) ::
        ((if true then [] else subheaderBytes .binary (if true then 0x5400 else 0x5000)) ++
          twosComp 1 ((0 : Nat) : Int) :: twosComp 1 ((255 : Nat) : Int) ::
          twosComp 1 ((1023 : Nat) : Int) :: twosComp 1 ((0 : Nat) : Int) ::
          (wordSizeOf .binary + ([1, 2, 3] : List Nat).length) ::
          twosComp 1 ((4 : Nat) : Int) :: [1, 2, 3])) ∧
    type3eBuildSendData .binary .little 0x5000 0 255 1023 0 4 [1, 2, 3] =
      .ok (subheaderBytes .binary 0x5000 ++
        twosComp 1 ((0 : Nat) : Int) :: twosComp 1 ((255 : Nat) : Int) ::
        twosComp 1 ((1023 : Nat) : Int) :: twosComp 1 ((0 : Nat) : Int) ::
        (wordSizeOf .binary + ([1, 2, 3] : List Nat).length) ::
        twosComp 1 ((4 : Nat) : Int) :: [1, 2, 3]) ∧
    wordSizeOf .binary = 2 ∧ wordSizeOf .ascii = 4) :=
  ⟨by decide, c8_body_length "Q" .binary 0 255 1023 0 4 5 true [1, 2, 3] (by decide)⟩

theorem ofDigits_digitsLE (fuel n : Nat) (h : n ≤ fuel) :
    Nat.ofDigits 10 (digitsLE 10 fuel n) = n := by
  induction fuel generalizing n with
  | zero =>
    interval_cases n
    simp [digitsLE]
  | succ fuel ih =>
    match n with
    | 0 => simp [digitsLE]
    | m + 1 =>
      rw [digitsLE]
      simp only [Nat.add_one_ne_zero, if_false]
      rw [Nat.ofDigits_cons, ih ((m + 1) / 10) (by omega)]
      omega

theorem digitsLE_mem (fuel n : Nat) : ∀ d ∈ digitsLE 10 fuel n, d < 10 := by
  induction fuel generalizing n with
  | zero => simp [digitsLE]
  | succ fuel ih =>
    match n with
    | 0 => simp [digitsLE]
    | m + 1 =>
      intro d hd
      rw [digitsLE] at hd
      simp only [Nat.add_one_ne_zero, if_false] at hd
      rcases List.mem_cons.mp hd with h | h
      · omega
      · exact ih _ _ h

theorem digitsLE_ne_nil (base fuel n : Nat) (hf : 0 < fuel) (hn : 0 < n) :
    digitsLE base fuel n ≠ [] := by
  match fuel with
  | f + 1 =>
    rw [digitsLE]
    rw [if_neg (by omega : ¬ n = 0)]
    exact List.cons_ne_nil _ _

theorem natDecBytes_ne_nil (m : Nat) : natDecBytes m ≠ [] := by
  unfold natDecBytes
  split
  · exact List.cons_ne_nil _ _
  · intro h
    rw [List.reverse_eq_nil_iff, List.map_eq_nil_iff] at h
    exact digitsLE_ne_nil 10 m m (by omega) (by omega) h

theorem natDecBytes_digits (m : Nat) : ∀ b ∈ natDecBytes m, isDigitByte b = true := by
  unfold natDecBytes
  split
  · intro b hb
    simp at hb
    subst hb
    decide
  · intro b hb
    rw [List.mem_reverse, List.mem_map] at hb
    obtain ⟨d, hd, rfl⟩ := hb
    have := digitsLE_mem m m d hd
    unfold isDigitByte
    simp
    omega

theorem bytesVal_natDecBytes (m : Nat) : bytesVal (natDecBytes m) = m := by
  unfold natDecBytes bytesVal
  split
  · simp_all [Nat.ofDigits]
  · rw [List.map_reverse, List.reverse_reverse, List.map_map]
    have hcomp : ((fun b => b - 48) ∘ fun d => 48 + d) = id := by
      funext d
      simp
    rw [hcomp, List.map_id, ofDigits_digitsLE m m le_rfl]

theorem parseI32_natDecBytes (m : Nat) (hm : m ≤ 2147483647) :
    parseI32 (natDecBytes m) = .ok m := by
  unfold parseI32
  rw [if_pos, bytesVal_natDecBytes, if_pos hm]
  exact ⟨natDecBytes_ne_nil m, List.all_eq_true.mpr (natDecBytes_digits m)⟩

theorem formatI32_ofNat (m : Nat) : formatI32 (m : Int) = natDecBytes m := by
  unfold formatI32
  rw [if_neg (by omega)]
  simp

theorem dropWhile_not_digit_append (dt ds : List Nat)
    (hdt : ∀ b ∈ dt, isDigitByte b = false) :
    (dt ++ ds).dropWhile (fun b => !isDigitByte b) =
      ds.dropWhile (fun b => !isDigitByte b) := by
  induction dt with
  | nil => rfl
  | cons a l ih =>
    rw [List.cons_append, List.dropWhile_cons]
    rw [hdt a (List.mem_cons_self a l)]
    simp only [Bool.not_false, if_true]
    exact ih (fun b hb => hdt b (List.mem_cons_of_mem a hb))

theorem dropWhile_digits_eq_self (ds : List Nat) (hne : ds ≠ [])
    (hds : ∀ b ∈ ds, isDigitByte b = true) :
    ds.dropWhile (fun b => !isDigitByte b) = ds := by
  match ds with
  | a :: l =>
    rw [List.dropWhile_cons, hds a (List.mem_cons_self a l)]
    simp

theorem getDeviceIndexAppend (dt : List Nat) (m : Nat)
    (hdt : ∀ b ∈ dt, isDigitByte b = false) (hm : m ≤ 2147483647) :
    getDeviceIndex (dt ++ natDecBytes m) = .ok (m : Int) := by
  unfold getDeviceIndex
  rw [dropWhile_not_digit_append dt (natDecBytes m) hdt,
    dropWhile_digits_eq_self (natDecBytes m) (natDecBytes_ne_nil m) (natDecBytes_digits m)]
  obtain ⟨a, l, heq⟩ := List.exists_cons_of_ne_nil (natDecBytes_ne_nil m)
  rw [heq]
  show Except.map (fun n => Int.ofNat n) (parseI32 (a :: l)) = .ok (m : Int)
  rw [← heq, parseI32_natDecBytes m hm]
  rfl

theorem getDeviceType_not_digit (device dt : List Nat)
    (h : getDeviceType device = .ok dt) : ∀ b ∈ dt, isDigitByte b = false := by
  unfold getDeviceType at h
  cases hd : device.dropWhile (fun b => isDigitByte b) with
  | nil => rw [hd] at h; exact absurd h (by simp)
  | cons a l =>
    rw [hd] at h
    injection h with h
    subst h
    intro b hb
    have := List.mem_takeWhile_imp hb
    simpa using this

theorem parseI32_le (bs : List Nat) (n : Nat) (h : parseI32 bs = .ok n) :
    n ≤ 2147483647 := by
  unfold parseI32 at h
  split at h
  · split at h
    · injection h with h
      omega
    · exact absurd h (by simp)
  · exact absurd h (by simp)

theorem getDeviceIndex_bounds (device : List Nat) (di : Int)
    (h : getDeviceIndex device = .ok di) : 0 ≤ di ∧ di ≤ 2147483647 := by
  unfold getDeviceIndex at h
  cases hd : device.dropWhile (fun b => !isDigitByte b) with
  | nil => rw [hd] at h; exact absurd h (by simp)
  | cons a l =>
    rw [hd] at h
    have h2 : Except.map (fun n => Int.ofNat n) (parseI32 (a :: l)) = .ok di := h
    cases hp : parseI32 (a :: l) with
    | error e =>
      rw [hp] at h2
      exact absurd h2 (by simp [Except.map])
    | ok n =>
      rw [hp] at h2
      simp only [Except.map, Except.ok.injEq] at h2
      subst h2
      have := parseI32_le (a :: l) n hp
      simp only [Int.ofNat_eq_coe]
      omega

theorem getDeviceIndex_shift (dt : List Nat) (hdt : ∀ b ∈ dt, isDigitByte b = false)
    (x : Int) (hx : 0 ≤ x) (hb : x ≤ 2147483647) :
    getDeviceIndex (dt ++ formatI32 x) = .ok x := by
  obtain ⟨m, rfl⟩ : ∃ m : Nat, x = (m : Int) := ⟨x.toNat, (Int.toNat_of_nonneg hx).symm⟩
  rw [formatI32_ofNat]
  exact getDeviceIndexAppend dt m hdt (by exact_mod_cast hb)

theorem foldl_add_sum (f : DataType → Nat) (ts : List DataType) (n : Nat) :
    ts.foldl (fun acc t => acc + f t) n = n + (ts.map f).sum := by
  induction ts generalizing n with
  | nil => simp
  | cons t l ih => simp [ih, Nat.add_assoc]

/-- C7: in random access, a tag whose data type has width 8 expands into
exactly `8 / 2 = 4` device-address entries, one per word, built from the
device class followed by the index incremented by one per word
(first conjunct); those per-word tag names re-parse to the strictly
increasing indices `di, di+1, di+2, di+3` (second conjunct); the words
count is the sum of `size / 2` over all tags (third conjunct).  On the
random-write side, however, the source slices
`temp_tag_value[data_index..data_index + _wordsize]` out of an encoded
value that is only `size / 2` bytes long, so writing any multi-word tag
panics (an error here) before the expansion completes: the fourth conjunct
evaluates the faithful model of the write loop on a width-8 tag. -/
theorem c7_random_expansion (plcType : String) (comm : CommType) (endian : Endian)
    (device dt : List Nat) (di : Int) (t : DataType) (ts : List DataType)
    (ht : t.size = 8)
    (hdt : getDeviceType device = .ok dt)
    (hdi : getDeviceIndex device = .ok di)
    (hbound : di + 3 ≤ 2147483647) :
    readTagBlocks plcType comm endian device t =
      List.mapM' (fun (k : Nat) => buildDeviceData plcType comm endian
        (dt ++ formatI32 (di + (k : Int)))) (List.range 4) ∧
    ((List.range 4).map fun (k : Nat) =>
        getDeviceIndex (dt ++ formatI32 (di + (k : Int)))) =
      ((List.range 4).map fun (k : Nat) => Except.ok (di + (k : Int))) ∧
    wordsCount ts = (ts.map (fun u => u.size / 2)).sum ∧
    writeTagRequest "Q" .binary .little (strBytes "D100") .DOUBLE 1 =
      .error "slice index out of range" := by
  obtain ⟨hnn, hle⟩ := getDeviceIndex_bounds device di hdi
  have hnd := getDeviceType_not_digit device dt hdt
  refine ⟨?_, ?_, ?_, by decide⟩
  · unfold readTagBlocks
    rw [ht]
    norm_num
    rw [hdt]
    simp only [except_bind_ok]
    rw [hdi]
    simp only [except_bind_ok]
  · simp only [show List.range 4 = [0, 1, 2, 3] from rfl, List.map_cons, List.map_nil]
    rw [getDeviceIndex_shift dt hnd (di + ((0 : Nat) : Int)) (by omega) (by omega),
      getDeviceIndex_shift dt hnd (di + ((1 : Nat) : Int)) (by omega) (by omega),
      getDeviceIndex_shift dt hnd (di + ((2 : Nat) : Int)) (by omega) (by omega),
      getDeviceIndex_shift dt hnd (di + ((3 : Nat) : Int)) (by omega) (by omega)]
  · simpa using foldl_add_sum (fun u => u.size / 2) ts 0

/-- Witness for C7 at a concrete input: the tag `D100` with type `DOUBLE`
expands into the four device blocks `D100 .. D103`, those names re-parse
to indices 100..103, the words count of `[DOUBLE, SWORD]` is `4 + 1`, and
the same tag in the random-write loop errors on the value slice. -/
theorem c7_random_expansion_witness :
    (readTagBlocks "Q" .binary .little (strBytes "D100") .DOUBLE =
      List.mapM' (fun (k : Nat) => buildDeviceData "Q" .binary .little
        (strBytes "D" ++ formatI32 (100 + (k : Int)))) (List.range 4)) ∧
    ((List.range 4).map fun (k : Nat) =>
        getDeviceIndex (strBytes "D" ++ formatI32 (100 + (k : Int)))) =
      ((List.range 4).map fun (k : Nat) => Except.ok ((100 : Int) + (k : Int))) ∧
    wordsCount [DataType.DOUBLE, DataType.SWORD] =
      (([DataType.DOUBLE, DataType.SWORD]).map (fun u => u.size / 2)).sum ∧
    writeTagRequest "Q" .binary .little (strBytes "D100") .DOUBLE 1 =
      .error "slice index out of range" :=
  c7_random_expansion "Q" .binary .little (strBytes "D100") (strBytes "D") 100
    .DOUBLE [DataType.DOUBLE, DataType.SWORD] rfl (by decide) (by decide) (by decide)
